import Mathlib

/-!
Verification of the SQL repair pipeline of SQL-Ball.

This file shallowly embeds the pure string-rewriting functions of the
repository (src/backend/rag/chain.py: SQLChain._clean_sql,
SQLChain._validate_season_usage, SQLChain._add_season_filter;
src/backend/rag/football.py: FootballTermMapper.get_context_hints;
src/backend/api/execute.py: execute_sql_query's SQL fixing and security
gate) as executable Lean functions over List Char, and proves or refutes
the specification claims about them.

Strings are modelled as lists of characters (Python str indexing and
slicing is by character, matching List Char).  Characters are treated as
ASCII for case mapping, whitespace and word-character classification,
which covers every character class the source manipulates.  The Python
regular expressions used by the source are hand-compiled into
deterministic matchers: each pattern's quantifiers run over character
classes disjoint from what follows them, so greedy maximal munch is the
exact semantics.
-/

set_option maxRecDepth 100000

namespace SqlBall

/-- Python whitespace class: the characters `str.split`, `str.strip`
and the regex class match on ASCII input. -/
def pyWs (c : Char) : Bool :=
  c = ' ' || c = '\t' || c = '\n' || c = '\x0d' || c = Char.ofNat 11 || c = Char.ofNat 12

/-- Python regex word character (ASCII): letters, digits, underscore. -/
def wordChar (c : Char) : Bool :=
  ('a' ≤ c && c ≤ 'z') || ('A' ≤ c && c ≤ 'Z') || ('0' ≤ c && c ≤ '9') || c = '_'

/-- ASCII uppercasing of one character, as Python `str.upper` acts on ASCII. -/
def upChar (c : Char) : Char :=
  if 97 ≤ c.toNat ∧ c.toNat ≤ 122 then Char.ofNat (c.toNat - 32) else c

/-- ASCII lowercasing of one character, as Python `str.lower` acts on ASCII. -/
def loChar (c : Char) : Char :=
  if 65 ≤ c.toNat ∧ c.toNat ≤ 90 then Char.ofNat (c.toNat + 32) else c

def upperL (l : List Char) : List Char := l.map upChar

def lowerL (l : List Char) : List Char := l.map loChar

/-- Python `str.lstrip()`. -/
def lstripL (l : List Char) : List Char := l.dropWhile pyWs

/-- Python `str.rstrip()`. -/
def rstripL (l : List Char) : List Char := (l.reverse.dropWhile pyWs).reverse

/-- Python `str.strip()`. -/
def stripL (l : List Char) : List Char := rstripL (lstripL l)

/-- Python `str.rstrip(';')`. -/
def rstripSemi (l : List Char) : List Char := (l.reverse.dropWhile (· = ';')).reverse

/-- Python `str.split()` with no argument: split on whitespace runs,
discarding empty pieces.  `acc` holds the reversed current word. -/
def splitWsAux : List Char → List Char → List (List Char)
  | acc, [] => if acc.isEmpty then [] else [acc.reverse]
  | acc, c :: cs =>
    if pyWs c then
      if acc.isEmpty then splitWsAux [] cs else acc.reverse :: splitWsAux [] cs
    else splitWsAux (c :: acc) cs

def splitWs (l : List Char) : List (List Char) := splitWsAux [] l

/-- `" ".join(parts)`. -/
def joinSpace (parts : List (List Char)) : List Char := List.intercalate [' '] parts

/-- `" ".join(s.split())`: collapse whitespace runs to single spaces. -/
def wsCollapse (l : List Char) : List Char := joinSpace (splitWs l)

/-- Index of the first occurrence of `pat` in `l` (Python `str.find` /
the position located by the `in` operator), if any. -/
def firstIdxAux (pat : List Char) : Nat → List Char → Option Nat
  | i, [] => if pat.isEmpty then some i else none
  | i, c :: cs => if pat.isPrefixOf (c :: cs) then some i else firstIdxAux pat (i + 1) cs

def firstIdx (pat l : List Char) : Option Nat := firstIdxAux pat 0 l

/-- Python `pat in s`. -/
def containsL (pat : List Char) : List Char → Bool
  | [] => pat.isEmpty
  | c :: cs => pat.isPrefixOf (c :: cs) || containsL pat cs

/-- Python `s.endswith(pat)`. -/
def endsWithL (pat l : List Char) : Bool := pat.isSuffixOf l

/-- Python `s.startswith(pat)`. -/
def startsWithL (pat l : List Char) : Bool := pat.isPrefixOf l

/-- Python `s.count(c)` for a single character. -/
def countChar (c : Char) (l : List Char) : Nat := l.count c

/-- Python `s.replace(old, new)` for nonempty `old`: replace all
non-overlapping occurrences, scanning left to right. -/
def replA (p rep : List Char) : Nat → List Char → List Char
  | 0, l => l
  | _ + 1, [] => []
  | f + 1, c :: cs =>
    if p.isPrefixOf (c :: cs) then rep ++ replA p rep f ((c :: cs).drop p.length)
    else c :: replA p rep f cs

def replaceAll (p rep l : List Char) : List Char := replA p rep (l.length + 1) l

/-! ### Regex matchers

Each Python regex of the source is hand-compiled to a matcher.  A matcher
receives the word-character status of the preceding character (for `\b`)
and the current suffix; on success it returns the matched text, the
captured group (empty when the pattern captures nothing) and the
remaining suffix. -/

def Matcher : Type :=
  Bool → List Char → Option (List Char × List Char × List Char)

/-- Case-insensitive literal: `pat` is given lowercased. -/
def eatCI : List Char → List Char → Option (List Char × List Char)
  | [], l => some ([], l)
  | _ :: _, [] => none
  | p :: ps, c :: cs =>
    if loChar c = p then
      match eatCI ps cs with
      | some (w, r) => some (c :: w, r)
      | none => none
    else none

/-- `\s*`: maximal whitespace run (possibly empty). -/
def eatWs : List Char → List Char × List Char
  | [] => ([], [])
  | c :: cs =>
    if pyWs c then
      match eatWs cs with
      | (w, r) => (c :: w, r)
    else ([], c :: cs)

/-- `\s+`: maximal whitespace run, at least one character. -/
def eatWs1 (l : List Char) : Option (List Char × List Char) :=
  match l with
  | [] => none
  | c :: cs => if pyWs c then some (eatWs (c :: cs)) else none

def isQuote (c : Char) : Bool := c = '\'' || c = '"'

/-- `[^'\"]+`: maximal nonempty run of non-quote characters. -/
def eatNQ (l : List Char) : Option (List Char × List Char) :=
  match l with
  | [] => none
  | c :: cs =>
    if isQuote c then none
    else
      match cs.span (fun d => !isQuote d) with
      | (w, r) => some (c :: w, r)

/-- `[^\"]*`: maximal (possibly empty) run of non-double-quote characters. -/
def eatNDQ (l : List Char) : List Char × List Char :=
  l.span (fun d => !d = '"')

/-- Trailing `\b` after a word character: end of input or non-word next. -/
def trailB : List Char → Bool
  | [] => true
  | c :: _ => !wordChar c

/-- Core of `season\s*=\s*['\"]([^'\"]+)['\"]` (case-insensitive, no `\b`). -/
def seasonCore (l : List Char) : Option (List Char × List Char × List Char) :=
  match eatCI "season".data l with
  | none => none
  | some (w1, r1) =>
    match eatWs r1 with
    | (w2, r2) =>
      match r2 with
      | '=' :: r3 =>
        match eatWs r3 with
        | (w4, r4) =>
          match r4 with
          | q1 :: r5 =>
            if isQuote q1 then
              match eatNQ r5 with
              | some (v, r6) =>
                match r6 with
                | q2 :: r7 =>
                  if isQuote q2 then
                    some (w1 ++ w2 ++ '=' :: w4 ++ q1 :: (v ++ [q2]), v, r7)
                  else none
                | [] => none
              | none => none
            else none
          | [] => none
      | _ => none

/-- `season\s*=\s*['\"]([^'\"]+)['\"]`, `re.IGNORECASE`. -/
def mSeason : Matcher := fun _ l => seasonCore l

/-- `\b` + case-insensitive word + trailing `\b` (word starts and ends in
word characters, as all uses here do). -/
def mWordCI (pat : List Char) : Matcher := fun pw l =>
  if pw then none
  else
    match eatCI pat l with
    | some (w, r) => if trailB r then some (w, [], r) else none
    | none => none

/-- `\bWHERE\b`, `re.IGNORECASE`. -/
def mWhereW : Matcher := mWordCI "where".data

/-- `\bLIMIT\b`, `re.IGNORECASE`. -/
def mLimitW : Matcher := mWordCI "limit".data

/-- `\bHAVING\b`, `re.IGNORECASE`. -/
def mHavingW : Matcher := mWordCI "having".data

/-- `\bdate\b`, `re.IGNORECASE`. -/
def mDate : Matcher := mWordCI "date".data

/-- `\bGROUP BY\b` (literal single space), `re.IGNORECASE`. -/
def mGroupByLit : Matcher := mWordCI "group by".data

/-- `\bORDER BY\b` (literal single space), `re.IGNORECASE`. -/
def mOrderByLit : Matcher := mWordCI "order by".data

/-- `\bW1\s+W2\b` for two case-insensitive words. -/
def mTwoWords (pat1 pat2 : List Char) : Matcher := fun pw l =>
  if pw then none
  else
    match eatCI pat1 l with
    | none => none
    | some (w1, r1) =>
      match eatWs1 r1 with
      | none => none
      | some (w2, r2) =>
        match eatCI pat2 r2 with
        | none => none
        | some (w3, r3) =>
          if trailB r3 then some (w1 ++ w2 ++ w3, [], r3) else none

/-- `\bGROUP\s+BY\b`, `re.IGNORECASE`. -/
def mGroupByR : Matcher := mTwoWords "group".data "by".data

/-- `\bORDER\s+BY\b`, `re.IGNORECASE`. -/
def mOrderByR : Matcher := mTwoWords "order".data "by".data

/-- `\bAND\s+AND\b`, `re.IGNORECASE`. -/
def mAndAnd : Matcher := mTwoWords "and".data "and".data

/-- `\bWHERE\s+AND\b`, `re.IGNORECASE`. -/
def mWhereAnd : Matcher := mTwoWords "where".data "and".data

/-- `\bAND\s+$`, `re.IGNORECASE`: AND, whitespace, end of string. -/
def mAndEnd : Matcher := fun pw l =>
  if pw then none
  else
    match eatCI "and".data l with
    | none => none
    | some (w1, r1) =>
      match eatWs1 r1 with
      | some (w2, []) => some (w1 ++ w2, [], [])
      | _ => none

/-- `\bAND\s+season\s*=\s*['\"][^'\"]+['\"]`, `re.IGNORECASE`. -/
def mAndSeason : Matcher := fun pw l =>
  if pw then none
  else
    match eatCI "and".data l with
    | none => none
    | some (w1, r1) =>
      match eatWs1 r1 with
      | none => none
      | some (w2, r2) =>
        match seasonCore r2 with
        | some (w3, _, r3) => some (w1 ++ w2 ++ w3, [], r3)
        | none => none

/-- `"([^"]*)"`: a double-quoted possibly-empty literal.  Returns the
matched text, the captured body and the rest. -/
def eatDqLit (l : List Char) : Option (List Char × List Char × List Char) :=
  match l with
  | q :: r1 =>
    if q = '"' then
      match eatNDQ r1 with
      | (v, r2) =>
        match r2 with
        | q2 :: r3 => if q2 = '"' then some ('"' :: (v ++ ['"']), v, r3) else none
        | [] => none
    else none
  | [] => none

/-- `=\s*"([^"]*)"` (case-sensitive). -/
def mEqDq : Matcher := fun _ l =>
  match l with
  | c :: r1 =>
    if c = '=' then
      match eatWs r1 with
      | (w2, r2) =>
        match eatDqLit r2 with
        | some (w3, v, r3) => some ('=' :: w2 ++ w3, v, r3)
        | none => none
    else none
  | [] => none

/-- `IN\s*\(\s*"([^"]*)"` (case-sensitive). -/
def mInDq : Matcher := fun _ l =>
  match l with
  | c1 :: c2 :: r1 =>
    if c1 = 'I' ∧ c2 = 'N' then
      match eatWs r1 with
      | (w2, r2) =>
        match r2 with
        | c3 :: r3 =>
          if c3 = '(' then
            match eatWs r3 with
            | (w4, r4) =>
              match eatDqLit r4 with
              | some (w5, v, r5) =>
                some ('I' :: 'N' :: w2 ++ '(' :: w4 ++ w5, v, r5)
              | none => none
          else none
        | [] => none
    else none
  | _ => none

/-- `",\s*"([^"]*)"` (case-sensitive). -/
def mDqComma : Matcher := fun _ l =>
  match l with
  | c1 :: c2 :: r1 =>
    if c1 = '"' ∧ c2 = ',' then
      match eatWs r1 with
      | (w2, r2) =>
        match eatDqLit r2 with
        | some (w3, v, r3) => some ('"' :: ',' :: w2 ++ w3, v, r3)
        | none => none
    else none
  | _ => none

/-- `\bfinished\s*=\s*1\b` or `...0\b`, `re.IGNORECASE`. -/
def mFinished (digit : Char) : Matcher := fun pw l =>
  if pw then none
  else
    match eatCI "finished".data l with
    | none => none
    | some (w1, r1) =>
      match eatWs r1 with
      | (w2, r2) =>
        match r2 with
        | '=' :: r3 =>
          match eatWs r3 with
          | (w4, r4) =>
            match r4 with
            | d :: r5 =>
              if d = digit ∧ trailB r5 then
                some (w1 ++ w2 ++ '=' :: w4 ++ [d], [], r5)
              else none
            | [] => none
        | _ => none

/-! ### Regex engines

Scanning proceeds character by character from position 0, tracking whether
the previous character of the original string is a word character (for
`\b`); after a match the scan resumes past the matched text, the
previous-character flag taken from the last matched character, exactly as
Python's `re` non-overlapping scan does. -/

def subAllAux (m : Matcher) (rep : List Char × List Char → List Char) :
    Nat → Bool → List Char → List Char
  | 0, _, l => l
  | _ + 1, _, [] => []
  | f + 1, pw, c :: cs =>
    match m pw (c :: cs) with
    | some (w, v, r) => rep (w, v) ++ subAllAux m rep f (wordChar (w.getLastD c)) r
    | none => c :: subAllAux m rep f (wordChar c) cs

/-- `re.sub(pattern, rep, s)`. -/
def reSubAll (m : Matcher) (rep : List Char × List Char → List Char)
    (l : List Char) : List Char :=
  subAllAux m rep (l.length + 1) false l

def subOnceAux (m : Matcher) (rep : List Char × List Char → List Char) :
    Nat → Bool → List Char → List Char
  | 0, _, l => l
  | _ + 1, _, [] => []
  | f + 1, pw, c :: cs =>
    match m pw (c :: cs) with
    | some (w, v, r) => rep (w, v) ++ r
    | none => c :: subOnceAux m rep f (wordChar c) cs

/-- `re.sub(pattern, rep, s, count=1)`. -/
def reSubOnce (m : Matcher) (rep : List Char × List Char → List Char)
    (l : List Char) : List Char :=
  subOnceAux m rep (l.length + 1) false l

def findAllAux (m : Matcher) : Nat → Bool → List Char → List (List Char × List Char)
  | 0, _, _ => []
  | _ + 1, _, [] => []
  | f + 1, pw, c :: cs =>
    match m pw (c :: cs) with
    | some (w, v, r) => (w, v) :: findAllAux m f (wordChar (w.getLastD c)) r
    | none => findAllAux m f (wordChar c) cs

/-- `re.findall(pattern, s)`: list of (whole match, captured group). -/
def reFindAll (m : Matcher) (l : List Char) : List (List Char × List Char) :=
  findAllAux m (l.length + 1) false l

def searchAux (m : Matcher) : Nat → Nat → Bool → List Char → Option (Nat × List Char × List Char)
  | 0, _, _, _ => none
  | _ + 1, _, _, [] => none
  | f + 1, i, pw, c :: cs =>
    match m pw (c :: cs) with
    | some (w, v, _) => some (i, w, v)
    | none => searchAux m f (i + 1) (wordChar c) cs

/-- `re.search(pattern, s)`: start position, whole match, captured group
of the first match. -/
def reSearch (m : Matcher) (l : List Char) : Option (Nat × List Char × List Char) :=
  searchAux m (l.length + 1) 0 false l

def searchAfterAux (m : Matcher) (k : Nat) : Nat → Nat → Bool → List Char → Option Nat
  | 0, _, _, _ => none
  | _ + 1, _, _, [] => none
  | f + 1, i, pw, c :: cs =>
    match m pw (c :: cs) with
    | some _ => if k < i then some i else searchAfterAux m k f (i + 1) (wordChar c) cs
    | none => searchAfterAux m k f (i + 1) (wordChar c) cs

/-- Earliest position strictly after `k` at which the pattern matches
(every position is tried, not only the non-overlapping scan). -/
def searchAfter (m : Matcher) (k : Nat) (l : List Char) : Option Nat :=
  searchAfterAux m k (l.length + 1) 0 false l

/-! ### SQLChain._clean_sql (src/backend/rag/chain.py, lines 287-385)

The function is a fixed sequence of passes; each block of the Python body
is one definition here, and `cleanSql` is their composition in source
order.  The `_validate_sql` call at the end only prints a warning and
never modifies the string, so it does not appear. -/

/-- Pass 1: `sql.replace("```sql", "").replace("```", "")`. -/
def fenceStrip (l : List Char) : List Char :=
  replaceAll "```".data [] (replaceAll "```sql".data [] l)

/-- Pass 3a: unbalanced parentheses with an unclosed `SUM(CASE WHEN`
get ` END)` appended. -/
def truncFixA (l : List Char) : List Char :=
  if countChar '(' l ≠ countChar ')' l ∧
      containsL "SUM(CASE WHEN".data l = true ∧ endsWithL "END)".data l = false then
    l ++ " END)".data
  else l

/-- Pass 3b: `away_sco` truncation repair. -/
def truncFixB (l : List Char) : List Char :=
  if endsWithL "_sco".data l = true ∧ containsL "away_score".data l = true then
    replaceAll "away_sco".data "away_score".data l
  else l

/-- The captured values of `re.findall(r"season\s*=\s*['\"]([^'\"]+)['\"]", sql, re.IGNORECASE)`. -/
def seasonVals (l : List Char) : List (List Char) :=
  (reFindAll mSeason l).map (fun p => p.2)

/-- The guard of the conflicting-season block:
`len(season_matches) > 1 and len(set(season_matches)) > 1`. -/
def conflictTrigger (l : List Char) : Bool :=
  decide (1 < (seasonVals l).length) && decide (1 < (seasonVals l).dedup.length)

/-- Insertion position in the no-WHERE branch of the conflicting-season
block: minimum over the first matches of `\bGROUP BY\b`, `\bORDER BY\b`,
`\bLIMIT\b` (literal spaces), starting from `len(sql)`. -/
def conflictInsertPos (l : List Char) : Nat :=
  let p0 := l.length
  let p1 := match reSearch mGroupByLit l with
    | some (i, _, _) => min p0 i
    | none => p0
  let p2 := match reSearch mOrderByLit l with
    | some (i, _, _) => min p1 i
    | none => p1
  match reSearch mLimitW l with
  | some (i, _, _) => min p2 i
  | none => p2

/-- Pass 4: conflicting-season resolution (chain.py lines 309-339). -/
def conflictFix (l : List Char) : List Char :=
  if conflictTrigger l = true then
    match reSearch mSeason l with
    | none => l
    | some (_, firstClause, _) =>
      let s1 := reSubAll mSeason (fun _ => []) l
      let s2 := reSubAll mAndAnd (fun _ => "AND".data) s1
      let s3 := reSubAll mWhereAnd (fun _ => "WHERE".data) s2
      let s4 := reSubAll mAndEnd (fun _ => []) (stripL s3)
      if containsL "WHERE".data (upperL s4) = true then
        reSubOnce mWhereW (fun _ => "WHERE ".data ++ firstClause ++ " AND".data) s4
      else
        let ip := conflictInsertPos s4
        rstripL (s4.take ip) ++ " WHERE ".data ++ firstClause ++ " ".data ++ s4.drop ip
  else l

/-- Whether the first `\bWHERE\b` match starts strictly after the first
`\bGROUP\s+BY\b` match (both must exist). -/
def whereAfterGroup (l : List Char) : Bool :=
  match reSearch mGroupByR l, reSearch mWhereW l with
  | some (g, _, _), some (w, _, _) => decide (g < w)
  | _, _ => false

/-- The guard of the reordering block: both substrings present in the
uppercased string, both regexes match, WHERE after GROUP BY. -/
def reorderTrigger (l : List Char) : Bool :=
  containsL "GROUP BY".data (upperL l) && containsL "WHERE".data (upperL l) &&
    whereAfterGroup l

/-- End of the misplaced WHERE clause: starting from `len(sql)`, take the
minimum over the first matches of `\bORDER\s+BY\b`, `\bLIMIT\b`,
`\bHAVING\b` whose start is after the WHERE start (chain.py lines 353-361). -/
def whereEndPos (l : List Char) (w : Nat) : Nat :=
  let e0 := l.length
  let e1 := match reSearch mOrderByR l with
    | some (i, _, _) => if w < i then min e0 i else e0
    | none => e0
  let e2 := match reSearch mLimitW l with
    | some (i, _, _) => if w < i then min e1 i else e1
    | none => e1
  match reSearch mHavingW l with
  | some (i, _, _) => if w < i then min e2 i else e2
  | none => e2

/-- The excise-and-reinsert construction of the reordering pass,
parameterised by the span-end policy: cut the WHERE clause at
`[w, spanEnd l w)`, strip it, join the surrounding pieces with one
space, and reinsert the clause before the recomputed GROUP BY position
(chain.py lines 357-375; the source instantiates `spanEnd` with
`whereEndPos`). -/
def reorderWith (spanEnd : List Char → Nat → Nat) (l : List Char) (w : Nat) : List Char :=
  let e := spanEnd l w
  let whereClause := stripL ((l.take e).drop w)
  let base := rstripL (l.take w) ++ " ".data ++ lstripL (l.drop e)
  match reSearch mGroupByR base with
  | some (g2, _, _) =>
    rstripL (base.take g2) ++ " ".data ++ whereClause ++ " ".data ++ base.drop g2
  | none => base

/-- Pass 5: WHERE-after-GROUP-BY reordering (chain.py lines 343-375). -/
def reorderFix (l : List Char) : List Char :=
  if reorderTrigger l = true then
    match reSearch mWhereW l with
    | some (w, _, _) => reorderWith whereEndPos l w
    | none => l
  else l

/-- Pass 7: `if not sql.strip().endswith(";"): sql = sql.strip() + ";"`. -/
def semiFix (l : List Char) : List Char :=
  if endsWithL ";".data (stripL l) = false then stripL l ++ ";".data else l

/-- `SQLChain._clean_sql`: the full pass sequence. -/
def cleanSql (l : List Char) : List Char :=
  semiFix (reorderFix (conflictFix (truncFixB (truncFixA (wsCollapse (fenceStrip l))))))

/-! ### SQLChain._validate_season_usage (chain.py, lines 419-434) -/

/-- The replacement text `f"season = '{requested_season}'"`. -/
def seasonClause (season : List Char) : List Char :=
  "season = '".data ++ season ++ "'".data

def validateSeasonUsage (l season : List Char) : List Char :=
  let vals := seasonVals l
  if vals ≠ [] ∧ season ∉ vals then
    reSubAll mSeason (fun _ => seasonClause season) l
  else l

/-! ### SQLChain._add_season_filter (chain.py, lines 436-457) -/

/-- The for-loop over `["ORDER BY", "GROUP BY", "LIMIT"]` with `break`:
position of the first clause present, checked in that fixed order. -/
def clausePosPriority (up : List Char) : Option Nat :=
  match firstIdx "ORDER BY".data up with
  | some i => some i
  | none =>
    match firstIdx "GROUP BY".data up with
    | some i => some i
    | none => firstIdx "LIMIT".data up

def addSeasonFilter (l season : List Char) : List Char :=
  let up := upperL l
  if containsL "WHERE".data up = true then
    if containsL "season".data up = true then l
    else
      let wp := (firstIdx "WHERE".data up).getD 0 + 5
      l.take wp ++ " season = '".data ++ season ++ "' AND".data ++ l.drop wp
  else
    let ip := (clausePosPriority up).getD (l.length - 1)
    l.take ip ++ " WHERE season = '".data ++ season ++ "' ".data ++ l.drop ip

/-! ### FootballTermMapper.get_context_hints (football.py, lines 220-241)

Only the three unconditional entries of the returned dictionary are
modelled; the later conditional insertions (`season_filter`,
`needs_grouping`, `gameweek`) use different keys and never overwrite
these three. -/

structure ContextHints where
  needsSeason : Bool
  defaultLimit : Nat
  orderDirection : List Char
  deriving Repr, DecidableEq

/-- `any(word in query.lower() for word in ["top", "best", "most", "highest"])`. -/
def superlative (query : List Char) : Bool :=
  containsL "top".data (lowerL query) || containsL "best".data (lowerL query) ||
    containsL "most".data (lowerL query) || containsL "highest".data (lowerL query)

def getContextHints (query : List Char) : ContextHints :=
  { needsSeason := true
    defaultLimit := 10
    orderDirection := if superlative query then "DESC".data else "ASC".data }

/-! ### execute_sql_query (src/backend/api/execute.py, lines 34-107)

`execClean` is the sequence of textual fixes applied to `request.sql`
before the security gate; `executeModel` is the endpoint's control flow
up to the Supabase RPC call: a cleaned statement that does not start
with SELECT raises HTTP 400 before the RPC is ever invoked. -/

def execClean (l : List Char) : List Char :=
  let a := rstripSemi (stripL l)
  let b := reSubAll mEqDq (fun p => "= '".data ++ p.2 ++ "'".data) a
  let c := reSubAll mInDq (fun p => "IN ('".data ++ p.2 ++ "'".data) b
  let d := reSubAll mDqComma (fun p => "', '".data ++ p.2 ++ "'".data) c
  let e :=
    if conflictTrigger d = true then
      let firstSeason := (seasonVals d).headD []
      let d1 := reSubAll mSeason (fun _ => seasonClause firstSeason) d
      let d2 := reSubAll mAndSeason (fun _ => []) d1
      reSubAll mAndAnd (fun _ => "AND".data) d2
    else d
  let f := reSubAll (mFinished '1') (fun _ => "finished = true".data) e
  let g := reSubAll (mFinished '0') (fun _ => "finished = false".data) f
  reSubAll mDate (fun _ => "kickoff_time".data) g

/-- `clean_sql.upper().strip().startswith('SELECT')`. -/
def selectGate (l : List Char) : Bool :=
  startsWithL "SELECT".data (stripL (upperL (execClean l)))

/-- Outcome of the execute endpoint up to the RPC call: either the
request is rejected with HTTP status 400 before any RPC, or the cleaned
SQL is forwarded to the `execute_sql` RPC. -/
inductive ExecOutcome where
  | rejected400 : ExecOutcome
  | forwardedToRpc : List Char → ExecOutcome
  deriving Repr, DecidableEq

def executeModel (l : List Char) : ExecOutcome :=
  if selectGate l = true then .forwardedToRpc (execClean l) else .rejected400

/-! ### String-level wrappers used in the claim statements. -/

def cleanSqlS (s : String) : String := ⟨cleanSql s.data⟩

def validateSeasonUsageS (s season : String) : String :=
  ⟨validateSeasonUsage s.data season.data⟩

/-- `_clean_sql` followed by `_validate_season_usage`: the repair
pipeline as the end-to-end scenario composes it. -/
def pipelineS (s season : String) : String :=
  ⟨validateSeasonUsage (cleanSql s.data) season.data⟩

def addSeasonFilterS (s season : String) : String :=
  ⟨addSeasonFilter s.data season.data⟩

def execCleanS (s : String) : String := ⟨execClean s.data⟩

/-! ### Claim-side definitions

These definitions follow the words of the specification claims (not the
source); they are compared against the source-derived definitions above. -/

/-- "ends with exactly one semicolon": a trailing `;` not preceded by
another `;`. -/
def endsOneSemi (l : List Char) : Bool :=
  endsWithL ";".data l && !endsWithL ";;".data l

/-- Start position of the first match of a pattern, if any. -/
def firstMatchPos (m : Matcher) (l : List Char) : Option Nat :=
  (reSearch m l).map (fun p => p.1)

/-- Minimum of the candidate positions strictly greater than `w`,
defaulting to `dflt`. -/
def minAfterList (ps : List (Option Nat)) (w dflt : Nat) : Nat :=
  ((ps.filterMap id).filter (fun i => decide (w < i))).foldr min dflt

/-- Amended span end for the reordering pass: among the *first* matches
of ORDER BY, LIMIT and HAVING, those after the WHERE start, minimised;
defaulting to the string length. -/
def amendedWhereEnd (l : List Char) (w : Nat) : Nat :=
  minAfterList
    [firstMatchPos mOrderByR l, firstMatchPos mLimitW l, firstMatchPos mHavingW l]
    w l.length

/-- Claim C5's span end: the WHERE span ends at the earliest *following*
ORDER BY / LIMIT / HAVING occurrence (any occurrence after the WHERE
start, not just the first of each keyword), or at the end of the string. -/
def claimWhereEnd (l : List Char) (w : Nat) : Nat :=
  minAfterList [searchAfter mOrderByR w l, searchAfter mLimitW w l, searchAfter mHavingW w l]
    w l.length

/-- The reordering pass as claim C5 states it: identical trigger, but the
excised span ends at the earliest following ORDER BY / LIMIT / HAVING. -/
def claimReorderFix (l : List Char) : List Char :=
  if reorderTrigger l = true then
    match reSearch mWhereW l with
    | some (w, _, _) => reorderWith claimWhereEnd l w
    | none => l
  else l

def reorderFixS (s : String) : String := ⟨reorderFix s.data⟩

def claimReorderFixS (s : String) : String := ⟨claimReorderFix s.data⟩

/-- Claim C9's insertion point: the earliest by character position of the
ORDER BY / GROUP BY / LIMIT clauses present. -/
def claimClausePos (up : List Char) : Option Nat :=
  match minAfterList [firstIdx "ORDER BY".data up, firstIdx "GROUP BY".data up,
      firstIdx "LIMIT".data up] 0 (up.length + 1) with
  | n => if n = up.length + 1 then none else some n

/-- `_add_season_filter` as claim C9 states it: WHERE branch as in the
code, otherwise insert before the earliest-by-position clause, or append
the clause when none of the three clauses and no WHERE exist. -/
def claimAddSeason (l season : List Char) : List Char :=
  let up := upperL l
  if containsL "WHERE".data up = true then
    let wp := (firstIdx "WHERE".data up).getD 0 + 5
    l.take wp ++ " season = '".data ++ season ++ "' AND".data ++ l.drop wp
  else
    match claimClausePos up with
    | some ip => l.take ip ++ " WHERE season = '".data ++ season ++ "' ".data ++ l.drop ip
    | none => l ++ " WHERE season = '".data ++ season ++ "' ".data

def claimAddSeasonS (s season : String) : String := ⟨claimAddSeason s.data season.data⟩

/-- Amended C9: the insertion point is the first clause *present* when
trying ORDER BY, then GROUP BY, then LIMIT in that fixed priority order,
expressed through `List.findSome?`; with no clause and no WHERE the text
is inserted before the final character. -/
def amendedAddSeason (l season : List Char) : List Char :=
  let up := upperL l
  if containsL "WHERE".data up = true then
    let wp := (firstIdx "WHERE".data up).getD 0 + 5
    l.take wp ++ " season = '".data ++ season ++ "' AND".data ++ l.drop wp
  else
    let ip := (["ORDER BY".data, "GROUP BY".data, "LIMIT".data].findSome?
      (fun c => firstIdx c up)).getD (l.length - 1)
    l.take ip ++ " WHERE season = '".data ++ season ++ "' ".data ++ l.drop ip

/-- Claim C7's description of `_validate_season_usage`, written from the
spec's words: if occurrences exist and none equals the requested value,
rewrite every occurrence to the requested value; otherwise return the
string unchanged. -/
def claimSeasonUsage (l season : List Char) : List Char :=
  if (seasonVals l).isEmpty then l
  else if season ∈ seasonVals l then l
  else reSubAll mSeason (fun _ => seasonClause season) l

/-- Minimal whitespace-free wrapper for minAfterList equality in C5:
the sequential minimum chain computed by the source. -/
def whereEndPosS (s : String) (w : Nat) : Nat := whereEndPos s.data w

/-! ## Supporting lemmas -/

theorem char_ofNat_toNat {n : Nat} (h : n.isValidChar) : (Char.ofNat n).toNat = n := by
  simp [Char.ofNat, h, Char.ofNatAux, Char.toNat, UInt32.toNat, BitVec.toNat_ofNatLt]

theorem upChar_ne_s (c : Char) : upChar c ≠ 's' := by
  unfold upChar
  split
  · rename_i h
    intro he
    have hv : (c.toNat - 32).isValidChar := Or.inl (by omega)
    have ht := char_ofNat_toNat hv
    rw [he] at ht
    have : ('s').toNat = 115 := by decide
    omega
  · rename_i h
    intro he
    subst he
    exact h (by constructor <;> decide)

theorem s_beq_upChar (c : Char) : ('s' == upChar c) = false := by
  simp only [beq_eq_false_iff_ne, ne_eq]
  intro h
  exact upChar_ne_s c h.symm

/-- An uppercased string never contains the lowercase substring
"season": the inner season-presence check of `_add_season_filter` can
never fire. -/
theorem seasonNotInUpper (l : List Char) : containsL "season".data (upperL l) = false := by
  induction l with
  | nil => rfl
  | cons c cs ih =>
    show containsL "season".data (upChar c :: upperL cs) = false
    simp only [containsL, Bool.or_eq_false_iff]
    refine ⟨?_, ih⟩
    show List.isPrefixOf ('s' :: "eason".data) (upChar c :: upperL cs) = false
    simp [List.isPrefixOf, s_beq_upChar c]

theorem clausePos_eq (up : List Char) :
    clausePosPriority up =
      (["ORDER BY".data, "GROUP BY".data, "LIMIT".data].findSome? (fun c => firstIdx c up)) := by
  unfold clausePosPriority
  cases h1 : firstIdx "ORDER BY".data up <;>
    cases h2 : firstIdx "GROUP BY".data up <;>
      cases h3 : firstIdx "LIMIT".data up <;>
        simp [List.findSome?, h1, h2, h3]

theorem dropWhile_append_keep {p : Char → Bool} {c : Char} (h : p c = false)
    (l m : List Char) :
    List.dropWhile p (l ++ c :: m) = List.dropWhile p l ++ c :: m := by
  induction l with
  | nil => simp [List.dropWhile_cons, h]
  | cons a as ih =>
    by_cases ha : p a
    · simp [List.dropWhile_cons, ha, ih]
    · simp [List.dropWhile_cons, ha]

theorem strip_append_nonws {c : Char} (hc : pyWs c = false) (u : List Char) :
    stripL (u ++ [c]) = List.dropWhile pyWs u ++ [c] := by
  unfold stripL lstripL rstripL
  rw [show (u ++ [c]) = u ++ c :: [] from rfl, dropWhile_append_keep hc]
  have : (List.dropWhile pyWs u ++ c :: []).reverse = c :: (List.dropWhile pyWs u).reverse := by
    simp
  rw [this, List.dropWhile_cons, hc]
  simp

theorem last_unique {a b : Char} {x : List Char} (h : [a] <:+ x) (h2 : [b] <:+ x) :
    a = b := by
  obtain ⟨u, rfl⟩ := h
  obtain ⟨v, hv⟩ := h2
  have := congrArg List.getLast? hv
  simpa using this.symm

theorem suffix_strip {c : Char} {l : List Char} (hc : pyWs c = false)
    (h : endsWithL [c] l = true) : endsWithL [c] (stripL l) = true := by
  have hs : [c] <:+ l := List.isSuffixOf_iff_suffix.mp h
  obtain ⟨u, rfl⟩ := hs
  rw [strip_append_nonws hc]
  exact List.isSuffixOf_iff_suffix.mpr (List.suffix_append _ _)

theorem semiFix_ends (t : List Char) :
    endsWithL ";".data (stripL (semiFix t)) = true := by
  unfold semiFix
  by_cases h : endsWithL ";".data (stripL t) = false
  · rw [if_pos h]
    show endsWithL [';'] (stripL (stripL t ++ [';'])) = true
    rw [strip_append_nonws (by decide)]
    exact List.isSuffixOf_iff_suffix.mpr (List.suffix_append _ _)
  · rw [if_neg h]
    simp only [Bool.not_eq_false] at h
    exact h

theorem containsL_append_false {p : List Char} (q : List Char) {l : List Char}
    (h : containsL p l = false) :
    containsL (p ++ q) l = false := by
  induction l with
  | nil =>
    simp only [containsL] at h ⊢
    cases p with
    | nil => exact absurd h (by simp)
    | cons a as => rfl
  | cons c cs ih =>
    simp only [containsL, Bool.or_eq_false_iff] at h ⊢
    refine ⟨?_, ih h.2⟩
    by_contra hb
    rw [Bool.not_eq_false] at hb
    have hp : p <+: (c :: cs) :=
      (List.prefix_append p q).trans (List.isPrefixOf_iff_prefix.mp hb)
    rw [← List.isPrefixOf_iff_prefix] at hp
    rw [h.1] at hp
    cases hp

theorem replA_nop {p rep : List Char} :
    ∀ (f : Nat) (l : List Char), containsL p l = false → replA p rep f l = l := by
  intro f
  induction f with
  | zero => intro l _; rfl
  | succ f ih =>
    intro l h
    cases l with
    | nil => rfl
    | cons c cs =>
      simp only [containsL, Bool.or_eq_false_iff] at h
      simp [replA, h.1, ih cs h.2]

theorem replaceAll_nop {p rep l : List Char} (h : containsL p l = false) :
    replaceAll p rep l = l := replA_nop _ _ h

theorem fenceStrip_nop {l : List Char} (h : containsL "```".data l = false) :
    fenceStrip l = l := by
  have h2 : containsL "```sql".data l = false := by
    have := containsL_append_false "sql".data h
    exact this
  unfold fenceStrip
  rw [replaceAll_nop h2, replaceAll_nop h]

theorem truncFixA_nop {l : List Char} (h : countChar '(' l = countChar ')' l) :
    truncFixA l = l := by
  unfold truncFixA
  rw [if_neg]
  rintro ⟨hc, -⟩
  exact hc h

theorem truncFixB_nop {l : List Char} (h7 : endsWithL ";".data (stripL l) = true) :
    truncFixB l = l := by
  unfold truncFixB
  rw [if_neg]
  rintro ⟨h1, -⟩
  have ho : endsWithL ['o'] l = true := by
    have hs : "_sco".data <:+ l := List.isSuffixOf_iff_suffix.mp h1
    exact List.isSuffixOf_iff_suffix.mpr
      (List.IsSuffix.trans (⟨"_sc".data, rfl⟩ : (['o'] : List Char) <:+ "_sco".data) hs)
  have ho2 : endsWithL ['o'] (stripL l) = true := suffix_strip (by decide) ho
  have hsemi : ([';'] : List Char) <:+ stripL l := List.isSuffixOf_iff_suffix.mp h7
  have : 'o' = ';' := last_unique (List.isSuffixOf_iff_suffix.mp ho2) hsemi
  exact absurd this (by decide)

theorem conflictFix_nop {l : List Char} (h5 : (seasonVals l).dedup.length ≤ 1) :
    conflictFix l = l := by
  have ht : conflictTrigger l = false := by
    unfold conflictTrigger
    simp only [Bool.and_eq_false_iff, decide_eq_false_iff_not]
    right
    omega
  simp [conflictFix, ht]

theorem reorderFix_nop {l : List Char} (h6 : whereAfterGroup l = false) :
    reorderFix l = l := by
  simp [reorderFix, reorderTrigger, h6]

theorem semiFix_nop {l : List Char} (h7 : endsWithL ";".data (stripL l) = true) :
    semiFix l = l := by
  simp [semiFix, h7]

theorem whereEnd_eq_amended (l : List Char) (w : Nat) :
    whereEndPos l w = amendedWhereEnd l w := by
  unfold whereEndPos amendedWhereEnd minAfterList firstMatchPos
  rcases h1 : reSearch mOrderByR l with _ | ⟨i1, a1, b1⟩ <;>
    rcases h2 : reSearch mLimitW l with _ | ⟨i2, a2, b2⟩ <;>
      rcases h3 : reSearch mHavingW l with _ | ⟨i3, a3, b3⟩ <;>
  · simp only [h1, h2, h3, List.filterMap_cons, List.filterMap_nil, Option.map_some,
      Option.map_none, id_eq, List.filter_cons, List.filter_nil, decide_eq_true_eq,
      List.foldr_cons, List.foldr_nil]
    first
    | rfl
    | (split_ifs <;> simp_all [Nat.min_def] <;> split_ifs <;> omega)

/-! ### Prefix-preservation machinery for the execute-endpoint gate

For claim C8 we show that none of the textual fixes of `execClean` can
touch the leading keyword of a non-SELECT statement: no pattern matches
at position 0 (or 1, 2 where needed), so substitution preserves the
leading characters, and the gate rejects. -/

theorem lstrip_cons {c : Char} {t : List Char} (h : pyWs c = false) :
    lstripL (c :: t) = c :: t := by
  simp [lstripL, List.dropWhile_cons, h]

theorem rstripGen (p : Char → Bool) (c : Char) (hc : p c = false) (pre t : List Char) :
    ∃ u, ((pre ++ c :: t).reverse.dropWhile p).reverse = pre ++ c :: u := by
  refine ⟨(t.reverse.dropWhile p).reverse, ?_⟩
  rw [List.reverse_append, List.reverse_cons, List.append_assoc, List.singleton_append,
    dropWhile_append_keep hc]
  simp

theorem sub1 (m : Matcher) (rep : List Char × List Char → List Char) (c1 : Char)
    (h0 : ∀ t', m false (c1 :: t') = none) (t : List Char) :
    ∃ u, reSubAll m rep (c1 :: t) = c1 :: u := by
  refine ⟨subAllAux m rep (t.length + 1) (wordChar c1) t, ?_⟩
  show subAllAux m rep ((c1 :: t).length + 1) false (c1 :: t) = _
  simp only [List.length_cons, subAllAux, h0 t]

theorem sub2 (m : Matcher) (rep : List Char × List Char → List Char) (c1 c2 : Char)
    (h0 : ∀ t', m false (c1 :: c2 :: t') = none)
    (h1 : ∀ t', m (wordChar c1) (c2 :: t') = none) (t : List Char) :
    ∃ u, reSubAll m rep (c1 :: c2 :: t) = c1 :: c2 :: u := by
  refine ⟨subAllAux m rep (t.length + 1) (wordChar c2) t, ?_⟩
  show subAllAux m rep ((c1 :: c2 :: t).length + 1) false (c1 :: c2 :: t) = _
  simp only [List.length_cons, subAllAux, h0 t, h1 t]

theorem sub3 (m : Matcher) (rep : List Char × List Char → List Char) (c1 c2 c3 : Char)
    (h0 : ∀ t', m false (c1 :: c2 :: c3 :: t') = none)
    (h1 : ∀ t', m (wordChar c1) (c2 :: c3 :: t') = none)
    (h2 : ∀ t', m (wordChar c2) (c3 :: t') = none) (t : List Char) :
    ∃ u, reSubAll m rep (c1 :: c2 :: c3 :: t) = c1 :: c2 :: c3 :: u := by
  refine ⟨subAllAux m rep (t.length + 1) (wordChar c3) t, ?_⟩
  show subAllAux m rep ((c1 :: c2 :: c3 :: t).length + 1) false (c1 :: c2 :: c3 :: t) = _
  simp only [List.length_cons, subAllAux, h0 t, h1 t, h2 t]

theorem mWordCI_pw (p : List Char) (l : List Char) : mWordCI p true l = none := by
  simp [mWordCI]

theorem mTwoWords_pw (p1 p2 : List Char) (l : List Char) : mTwoWords p1 p2 true l = none := by
  simp [mTwoWords]

theorem mAndSeason_pw (l : List Char) : mAndSeason true l = none := by
  simp [mAndSeason]

theorem mFinished_pw (d : Char) (l : List Char) : mFinished d true l = none := by
  simp [mFinished]

theorem eatCI_hd {p : Char} {ps : List Char} {c : Char} {cs : List Char}
    (h : ¬loChar c = p) : eatCI (p :: ps) (c :: cs) = none := by
  simp [eatCI, h]

theorem mEqDq_hd {pw : Bool} {c : Char} {t : List Char} (h : ¬c = '=') :
    mEqDq pw (c :: t) = none := by
  simp [mEqDq, h]

theorem mInDq_hd {pw : Bool} {c : Char} {t : List Char} (h : ¬c = 'I') :
    mInDq pw (c :: t) = none := by
  cases t <;> simp [mInDq, h]

theorem mInDq_three {pw : Bool} {c3 : Char} {t : List Char} (h1 : pyWs c3 = false)
    (h2 : ¬c3 = '(') : mInDq pw ('I' :: 'N' :: c3 :: t) = none := by
  simp [mInDq, eatWs, h1, h2]

theorem mDqComma_hd {pw : Bool} {c : Char} {t : List Char} (h : ¬c = '"') :
    mDqComma pw (c :: t) = none := by
  cases t <;> simp [mDqComma, h]

theorem mSeason_hd {pw : Bool} {c : Char} {t : List Char} (h : ¬loChar c = 's') :
    mSeason pw (c :: t) = none := by
  show seasonCore (c :: t) = none
  unfold seasonCore
  rw [show ("season".data : List Char) = 's' :: "eason".data from rfl, eatCI_hd h]

theorem mWordCI_hd {p : Char} {ps : List Char} {c : Char} {t : List Char}
    (h : ¬loChar c = p) : mWordCI (p :: ps) false (c :: t) = none := by
  simp [mWordCI, eatCI_hd h]

theorem mWordCI_hd2 {p1 p2 : Char} {ps : List Char} {c1 c2 : Char} {t : List Char}
    (h1 : loChar c1 = p1) (h2 : ¬loChar c2 = p2) :
    mWordCI (p1 :: p2 :: ps) false (c1 :: c2 :: t) = none := by
  simp [mWordCI, eatCI, h1, h2]

theorem mTwoWords_hd {p1 : Char} {ps pat2 : List Char} {c : Char} {t : List Char}
    (h : ¬loChar c = p1) : mTwoWords (p1 :: ps) pat2 false (c :: t) = none := by
  simp [mTwoWords, eatCI_hd h]

theorem mAndSeason_hd {c : Char} {t : List Char} (h : ¬loChar c = 'a') :
    mAndSeason false (c :: t) = none := by
  unfold mAndSeason
  rw [show ("and".data : List Char) = 'a' :: "nd".data from rfl, eatCI_hd h]
  simp

theorem mFinished_hd {d : Char} {c : Char} {t : List Char} (h : ¬loChar c = 'f') :
    mFinished d false (c :: t) = none := by
  unfold mFinished
  rw [show ("finished".data : List Char) = 'f' :: "inished".data from rfl, eatCI_hd h]
  simp

theorem startsSelect_false {c : Char} {v : List Char} (h : ('S' == c) = false) :
    startsWithL "SELECT".data (c :: v) = false := by
  show List.isPrefixOf ('S' :: "ELECT".data) (c :: v) = false
  simp [List.isPrefixOf, h]

theorem rejected_of_exec_head {l u : List Char} {c : Char} (hu : execClean l = c :: u)
    (hup : upChar c = c) (hws : pyWs c = false) (hS : ('S' == c) = false) :
    executeModel l = ExecOutcome.rejected400 := by
  have hg : selectGate l = false := by
    unfold selectGate
    rw [hu]
    show startsWithL "SELECT".data (stripL (upChar c :: upperL u)) = false
    rw [hup]
    unfold stripL
    rw [lstrip_cons hws]
    have hv := rstripGen pyWs c hws [] (upperL u)
    obtain ⟨v, hv⟩ := hv
    have hv' : rstripL (c :: upperL u) = c :: v := by simpa [rstripL] using hv
    rw [hv']
    exact startsSelect_false hS
  unfold executeModel
  rw [hg]
  simp

/-- No fix of `execClean` can match at position 0 or 1 of a string whose
first two characters satisfy these side conditions, so both characters
survive the whole fix chain. -/
theorem execClean_pre2 (c1 c2 : Char)
    (hw1 : pyWs c1 = false) (hw2 : pyWs c2 = false)
    (hsemi : ¬c2 = ';')
    (hword : wordChar c1 = true)
    (hq1 : ¬c1 = '=') (hq2 : ¬c2 = '=')
    (hi1 : ¬c1 = 'I') (hi2 : ¬c2 = 'I')
    (hd1 : ¬c1 = '"') (hd2 : ¬c2 = '"')
    (hs1 : ¬loChar c1 = 's') (hs2 : ¬loChar c2 = 's')
    (ha1 : ¬loChar c1 = 'a')
    (hf1 : ¬loChar c1 = 'f')
    (hdate : ∀ t', mDate false (c1 :: c2 :: t') = none)
    (t : List Char) : ∃ u, execClean (c1 :: c2 :: t) = c1 :: c2 :: u := by
  obtain ⟨t1, e1⟩ := rstripGen pyWs c2 hw2 [c1] t
  have e1' : rstripL (c1 :: c2 :: t) = c1 :: c2 :: t1 := by simpa [rstripL] using e1
  obtain ⟨t2, e2⟩ := rstripGen (fun x => x == ';') c2 (by simpa using hsemi) [c1] t1
  have e2' : rstripSemi (c1 :: c2 :: t1) = c1 :: c2 :: t2 := by simpa [rstripSemi] using e2
  have estrip : rstripSemi (stripL (c1 :: c2 :: t)) = c1 :: c2 :: t2 := by
    unfold stripL
    rw [lstrip_cons hw1, e1', e2']
  have hpw1 : wordChar c1 = true := hword
  obtain ⟨t3, e3⟩ := sub2 (mEqDq) (fun p => "= '".data ++ p.2 ++ "'".data)
    c1 c2 (fun t' => mEqDq_hd hq1) (fun t' => mEqDq_hd hq2) t2
  obtain ⟨t4, e4⟩ := sub2 (mInDq) (fun p => "IN ('".data ++ p.2 ++ "'".data)
    c1 c2 (fun t' => mInDq_hd hi1) (fun t' => mInDq_hd hi2) t3
  obtain ⟨t5, e5⟩ := sub2 (mDqComma) (fun p => "', '".data ++ p.2 ++ "'".data)
    c1 c2 (fun t' => mDqComma_hd hd1) (fun t' => mDqComma_hd hd2) t4
  by_cases hc : conflictTrigger (c1 :: c2 :: t5) = true
  · obtain ⟨t6, e6⟩ := sub2 (mSeason)
      (fun _ => seasonClause ((seasonVals (c1 :: c2 :: t5)).headD []))
      c1 c2 (fun t' => mSeason_hd hs1) (fun t' => mSeason_hd hs2) t5
    obtain ⟨t7, e7⟩ := sub2 (mAndSeason) (fun _ => ([] : List Char))
      c1 c2 (fun t' => mAndSeason_hd ha1)
      (fun t' => by rw [hpw1]; exact mAndSeason_pw _) t6
    obtain ⟨t8, e8⟩ := sub2 (mAndAnd) (fun _ => "AND".data)
      c1 c2 (fun t' => mTwoWords_hd ha1)
      (fun t' => by rw [hpw1]; exact mTwoWords_pw _ _ _) t7
    obtain ⟨t9, e9⟩ := sub2 (mFinished '1') (fun _ => "finished = true".data)
      c1 c2 (fun t' => mFinished_hd hf1)
      (fun t' => by rw [hpw1]; exact mFinished_pw _ _) t8
    obtain ⟨t10, e10⟩ := sub2 (mFinished '0') (fun _ => "finished = false".data)
      c1 c2 (fun t' => mFinished_hd hf1)
      (fun t' => by rw [hpw1]; exact mFinished_pw _ _) t9
    obtain ⟨t11, e11⟩ := sub2 (mDate) (fun _ => "kickoff_time".data)
      c1 c2 hdate (fun t' => by rw [hpw1]; exact mWordCI_pw _ _) t10
    refine ⟨t11, ?_⟩
    simp only [execClean]
    rw [estrip, e3, e4, e5, if_pos hc, e6, e7, e8, e9, e10, e11]
  · obtain ⟨t9, e9⟩ := sub2 (mFinished '1') (fun _ => "finished = true".data)
      c1 c2 (fun t' => mFinished_hd hf1)
      (fun t' => by rw [hpw1]; exact mFinished_pw _ _) t5
    obtain ⟨t10, e10⟩ := sub2 (mFinished '0') (fun _ => "finished = false".data)
      c1 c2 (fun t' => mFinished_hd hf1)
      (fun t' => by rw [hpw1]; exact mFinished_pw _ _) t9
    obtain ⟨t11, e11⟩ := sub2 (mDate) (fun _ => "kickoff_time".data)
      c1 c2 hdate (fun t' => by rw [hpw1]; exact mWordCI_pw _ _) t10
    refine ⟨t11, ?_⟩
    simp only [execClean]
    rw [estrip, e3, e4, e5, if_neg hc, e9, e10, e11]

/-- The INSERT case: three leading characters are needed to refute a
match of the IN-list pattern at position 0; afterwards the leading `I`
alone blocks every later pattern. -/
theorem execClean_pre_insert (t : List Char) :
    ∃ u, execClean ('I' :: 'N' :: 'S' :: t) = 'I' :: u := by
  obtain ⟨t1, e1⟩ := rstripGen pyWs 'S' (by decide) ['I', 'N'] t
  have e1' : rstripL ('I' :: 'N' :: 'S' :: t) = 'I' :: 'N' :: 'S' :: t1 := by
    simpa [rstripL] using e1
  obtain ⟨t2, e2⟩ := rstripGen (fun x => x == ';') 'S' (by decide) ['I', 'N'] t1
  have e2' : rstripSemi ('I' :: 'N' :: 'S' :: t1) = 'I' :: 'N' :: 'S' :: t2 := by
    simpa [rstripSemi] using e2
  have estrip : rstripSemi (stripL ('I' :: 'N' :: 'S' :: t)) = 'I' :: 'N' :: 'S' :: t2 := by
    unfold stripL
    rw [lstrip_cons (by decide), e1', e2']
  obtain ⟨t3, e3⟩ := sub3 (mEqDq) (fun p => "= '".data ++ p.2 ++ "'".data)
    'I' 'N' 'S' (fun t' => mEqDq_hd (by decide))
    (fun t' => mEqDq_hd (by decide)) (fun t' => mEqDq_hd (by decide)) t2
  obtain ⟨t4, e4⟩ := sub3 (mInDq) (fun p => "IN ('".data ++ p.2 ++ "'".data)
    'I' 'N' 'S' (fun t' => mInDq_three (by decide) (by decide))
    (fun t' => mInDq_hd (by decide)) (fun t' => mInDq_hd (by decide)) t3
  obtain ⟨t5, e5⟩ := sub1 (mDqComma) (fun p => "', '".data ++ p.2 ++ "'".data)
    'I' (fun t' => mDqComma_hd (by decide)) ('N' :: 'S' :: t4)
  by_cases hc : conflictTrigger ('I' :: t5) = true
  · obtain ⟨t6, e6⟩ := sub1 (mSeason)
      (fun _ => seasonClause ((seasonVals ('I' :: t5)).headD []))
      'I' (fun t' => mSeason_hd (by decide)) t5
    obtain ⟨t7, e7⟩ := sub1 (mAndSeason) (fun _ => ([] : List Char))
      'I' (fun t' => mAndSeason_hd (by decide)) t6
    obtain ⟨t8, e8⟩ := sub1 (mAndAnd) (fun _ => "AND".data)
      'I' (fun t' => mTwoWords_hd (by decide)) t7
    obtain ⟨t9, e9⟩ := sub1 (mFinished '1') (fun _ => "finished = true".data)
      'I' (fun t' => mFinished_hd (by decide)) t8
    obtain ⟨t10, e10⟩ := sub1 (mFinished '0') (fun _ => "finished = false".data)
      'I' (fun t' => mFinished_hd (by decide)) t9
    obtain ⟨t11, e11⟩ := sub1 (mDate) (fun _ => "kickoff_time".data)
      'I' (fun t' => mWordCI_hd (by decide)) t10
    refine ⟨t11, ?_⟩
    simp only [execClean]
    rw [estrip, e3, e4, e5, if_pos hc, e6, e7, e8, e9, e10, e11]
  · obtain ⟨t9, e9⟩ := sub1 (mFinished '1') (fun _ => "finished = true".data)
      'I' (fun t' => mFinished_hd (by decide)) t5
    obtain ⟨t10, e10⟩ := sub1 (mFinished '0') (fun _ => "finished = false".data)
      'I' (fun t' => mFinished_hd (by decide)) t9
    obtain ⟨t11, e11⟩ := sub1 (mDate) (fun _ => "kickoff_time".data)
      'I' (fun t' => mWordCI_hd (by decide)) t10
    refine ⟨t11, ?_⟩
    simp only [execClean]
    rw [estrip, e3, e4, e5, if_neg hc, e9, e10, e11]

/-! ## Claim theorems -/

/-- Claim C1: the spec's end-to-end scenario claims that repairing
the raw SQL yields the clean string with the WHERE relocated and the
season collapsed.  The code actually leaves a dangling AND, a double
space and a stray trailing WHERE: this theorem evaluates the pipeline at
the scenario input, exhibiting the divergence. -/
theorem c1_scenario_divergence :
    pipelineS "SELECT * FROM matches WHERE season = \"2023-2024\" GROUP BY home_team WHERE season = \"2024-2025\"" "2024-2025"
      = "SELECT * FROM matches WHERE season = '2024-2025' AND  GROUP BY home_team WHERE;" ∧
    pipelineS "SELECT * FROM matches WHERE season = \"2023-2024\" GROUP BY home_team WHERE season = \"2024-2025\"" "2024-2025"
      ≠ "SELECT * FROM matches WHERE season = '2024-2025' GROUP BY home_team;" := by
  constructor
  · rfl
  · decide

/-- Claim C3: conflicting-predicate resolution is claimed to leave no
dangling AND.  On two adjacent conflicting season predicates the code
reinserts the first clause followed by AND with nothing after it: the
result ends in a dangling AND directly before the terminating semicolon
(the trailing-AND cleanup regex requires trailing whitespace and runs on
an already-stripped string, so it can never fire). -/
theorem c3_dangling_and :
    cleanSqlS "SELECT * FROM matches WHERE season = '2023-2024' AND season = '2024-2025'"
      = "SELECT * FROM matches WHERE season = '2023-2024' AND;" ∧
    endsWithL "AND;".data
      (cleanSql "SELECT * FROM matches WHERE season = '2023-2024' AND season = '2024-2025'".data)
      = true := by
  constructor
  · rfl
  · rfl

/-- Claim C4: quote normalization is claimed to rewrite a whole
double-quoted IN list.  The `= "literal"` rewrite works, but in an IN
list only the first element is converted: the element-chain rewrite runs
after the opening-element rewrite has already replaced the closing quote
of the first element, so its `",` anchor no longer exists and the second
element stays double-quoted, contradicting the code's own comment. -/
theorem c4_in_list_divergence :
    execCleanS "SELECT * FROM t WHERE team = \"Arsenal\"" = "SELECT * FROM t WHERE team = 'Arsenal'" ∧
    execCleanS "SELECT * FROM t WHERE x IN (\"A\", \"B\")" = "SELECT * FROM t WHERE x IN ('A', \"B\")" ∧
    containsL "IN ('A', 'B')".data
      (execClean "SELECT * FROM t WHERE x IN (\"A\", \"B\")".data) = false := by
  refine ⟨rfl, rfl, ?_⟩
  rfl

/-- Claim C6 counterexample: an input ending in `;;;` is returned with
all three semicolons: the termination pass only appends when the
stripped string does not already end in `;`, and never strips extras. -/
theorem c6_counterexample :
    cleanSqlS "SELECT 1;;;" = "SELECT 1;;;" ∧
    endsOneSemi (cleanSql "SELECT 1;;;".data) = false := by
  constructor
  · rfl
  · rfl

/-- Claim C2 counterexample: a full-pipeline output on which re-running
the pipeline changes the string.  Conflict resolution of
`season = 'A' OR season = 'B'` leaves a double space; the second run's
whitespace collapse removes it. -/
theorem c2_counterexample :
    pipelineS "SELECT * FROM t WHERE season = 'A' OR season = 'B'" "A"
      = "SELECT * FROM t WHERE season = 'A' AND  OR;" ∧
    cleanSqlS (pipelineS "SELECT * FROM t WHERE season = 'A' OR season = 'B'" "A")
      ≠ pipelineS "SELECT * FROM t WHERE season = 'A' OR season = 'B'" "A" := by
  constructor
  · rfl
  · decide

/-- Claim C5 counterexample: the claim says the excised WHERE span ends
at the earliest *following* ORDER BY / LIMIT / HAVING.  The code only
considers the *first* occurrence of each keyword and discards it when it
lies before WHERE: with an ORDER BY inside a subquery, the code's span
swallows the final ORDER BY and moves it too, while the claim's span
stops before it. -/
theorem c5_counterexample :
    reorderFixS "SELECT a FROM (SELECT b FROM u ORDER BY b) GROUP BY a WHERE a > 1 ORDER BY a"
      ≠ claimReorderFixS "SELECT a FROM (SELECT b FROM u ORDER BY b) GROUP BY a WHERE a > 1 ORDER BY a" ∧
    cleanSqlS "SELECT a FROM (SELECT b FROM u ORDER BY b) GROUP BY a WHERE a > 1 ORDER BY a"
      = "SELECT a FROM (SELECT b FROM u ORDER BY b) WHERE a > 1 ORDER BY a GROUP BY a;" ∧
    claimReorderFixS "SELECT a FROM (SELECT b FROM u ORDER BY b) GROUP BY a WHERE a > 1 ORDER BY a"
      = "SELECT a FROM (SELECT b FROM u ORDER BY b) WHERE a > 1 GROUP BY a ORDER BY a" := by
  refine ⟨by decide, rfl, rfl⟩

/-- Claim C9 counterexample: the claim says the injected season filter
goes before the earliest-by-position of ORDER BY / GROUP BY / LIMIT.
The code checks the clauses in a fixed priority order (ORDER BY first)
and inserts there: with both GROUP BY and a later ORDER BY present, the
filter lands after the GROUP BY, not before it. -/
theorem c9_counterexample :
    addSeasonFilterS "SELECT x FROM t GROUP BY x ORDER BY x" "2024-2025"
      ≠ claimAddSeasonS "SELECT x FROM t GROUP BY x ORDER BY x" "2024-2025" ∧
    addSeasonFilterS "SELECT x FROM t GROUP BY x ORDER BY x" "2024-2025"
      = "SELECT x FROM t GROUP BY x  WHERE season = '2024-2025' ORDER BY x" ∧
    claimAddSeasonS "SELECT x FROM t GROUP BY x ORDER BY x" "2024-2025"
      = "SELECT x FROM t  WHERE season = '2024-2025' GROUP BY x ORDER BY x" := by
  refine ⟨by decide, rfl, rfl⟩

/-- Claim C10: for every question, the context hints always request a
season filter, default the result cap to 10, and pick DESC exactly when
the lowercased question contains one of the four superlative markers. -/
theorem c10_context_hints (q : List Char) :
    (getContextHints q).needsSeason = true ∧
    (getContextHints q).defaultLimit = 10 ∧
    ((getContextHints q).orderDirection = "DESC".data ↔ superlative q = true) ∧
    ((getContextHints q).orderDirection = "ASC".data ↔ superlative q = false) ∧
    superlative q =
      (containsL "top".data (lowerL q) || containsL "best".data (lowerL q) ||
        containsL "most".data (lowerL q) || containsL "highest".data (lowerL q)) := by
  refine ⟨rfl, rfl, ?_, ?_, rfl⟩ <;>
    · unfold getContextHints
      by_cases h : superlative q <;> simp [h]

/-- Claim C7: season-usage correction.  When season occurrences exist
and none equals the requested value, every occurrence is rewritten to
the requested value; when an occurrence already matches, or none exist,
the string is returned unchanged.  The third conjunct compares the
source function against the claim's own description. -/
theorem c7_season_usage (l r : List Char) :
    (seasonVals l ≠ [] ∧ r ∉ seasonVals l →
      validateSeasonUsage l r = reSubAll mSeason (fun _ => seasonClause r) l) ∧
    (seasonVals l = [] ∨ r ∈ seasonVals l → validateSeasonUsage l r = l) ∧
    validateSeasonUsage l r = claimSeasonUsage l r := by
  refine ⟨?_, ?_, ?_⟩
  · intro h
    simp only [validateSeasonUsage]
    rw [if_pos h]
  · intro h
    simp only [validateSeasonUsage]
    rw [if_neg]
    rintro ⟨h1, h2⟩
    rcases h with h | h
    · exact h1 h
    · exact h2 h
  · by_cases h1 : seasonVals l = []
    · simp [validateSeasonUsage, claimSeasonUsage, h1]
    · by_cases h2 : r ∈ seasonVals l <;>
        simp [validateSeasonUsage, claimSeasonUsage, h1, h2, List.isEmpty_iff]

/-- Witness for C7: two distinct season literals, neither the requested
one — both get rewritten to the requested value. -/
theorem c7_witness :
    validateSeasonUsage "SELECT * FROM m WHERE season = 'A' OR season = 'B'".data "2024-2025".data
      = "SELECT * FROM m WHERE season = '2024-2025' OR season = '2024-2025'".data :=
  ((c7_season_usage "SELECT * FROM m WHERE season = 'A' OR season = 'B'".data
      "2024-2025".data).1 (by constructor <;> decide)).trans (by rfl)

/-- Claim C9 (amended): `_add_season_filter` inserts `season = '<v>' AND`
right after the first WHERE if any WHERE is present (the internal
season-presence guard compares lowercase text against an uppercased
string and never fires); otherwise the filter goes before the first
clause present when checking ORDER BY, then GROUP BY, then LIMIT in that
fixed priority order — not before the earliest clause by position — and
when none is present it is inserted before the final character. -/
theorem c9_amended (l season : List Char) :
    addSeasonFilter l season = amendedAddSeason l season := by
  simp only [addSeasonFilter, amendedAddSeason]
  rw [clausePos_eq]
  by_cases hw : containsL "WHERE".data (upperL l) = true
  · rw [if_pos hw, if_pos hw, seasonNotInUpper l]
    simp
  · rw [if_neg hw, if_neg hw]

/-- Claim C6 (amended): every pipeline output, stripped of surrounding
whitespace, ends in a semicolon; and the termination pass leaves any
string whose stripped form already ends in `;` unchanged — so extra
semicolons such as `;;;` are preserved, not reduced to one. -/
theorem c6_amended (l : List Char) :
    endsWithL ";".data (stripL (cleanSql l)) = true ∧
    (endsWithL ";".data (stripL l) = true → semiFix l = l) := by
  constructor
  · unfold cleanSql
    exact semiFix_ends _
  · intro h
    exact semiFix_nop h

/-- Witness for C6: the conditional part applied at a concrete string
already ending in a semicolon. -/
theorem c6_witness :
    endsWithL ";".data (stripL (cleanSql "SELECT 1".data)) = true ∧
    semiFix "SELECT 1;".data = "SELECT 1;".data :=
  ⟨(c6_amended "SELECT 1".data).1, (c6_amended "SELECT 1;".data).2 (by rfl)⟩

/-- Claim C5 (amended): when both clauses are present and the first
WHERE starts after the first GROUP BY, the reordering pass excises the
WHERE span — ending at the minimum over the *first* matches of ORDER BY,
LIMIT and HAVING that lie after the WHERE start (later occurrences of
those keywords are never considered), or at the end of the string — and
reinserts it immediately before the recomputed GROUP BY position; in
particular the spec's example still repairs to
`SELECT a FROM t WHERE a > 1 GROUP BY a;`. -/
theorem c5_amended (l : List Char) (g w : Nat) (gw gv ww wv : List Char)
    (hup1 : containsL "GROUP BY".data (upperL l) = true)
    (hup2 : containsL "WHERE".data (upperL l) = true)
    (hg : reSearch mGroupByR l = some (g, gw, gv))
    (hw : reSearch mWhereW l = some (w, ww, wv))
    (hgt : g < w) :
    reorderFix l = reorderWith amendedWhereEnd l w ∧
    cleanSqlS "SELECT a FROM t GROUP BY a WHERE a > 1"
      = "SELECT a FROM t WHERE a > 1 GROUP BY a;" := by
  constructor
  · have htrig : reorderTrigger l = true := by
      unfold reorderTrigger whereAfterGroup
      rw [hg, hw, hup1, hup2]
      simp [hgt]
    unfold reorderFix
    rw [htrig, if_pos rfl, hw]
    show reorderWith whereEndPos l w = reorderWith amendedWhereEnd l w
    unfold reorderWith
    rw [whereEnd_eq_amended]
  · rfl

/-- Witness for C5: the amended span policy instantiated on the spec's
own example. -/
theorem c5_witness :
    reorderFix "SELECT a FROM t GROUP BY a WHERE a > 1".data
      = "SELECT a FROM t WHERE a > 1 GROUP BY a ".data :=
  ((c5_amended "SELECT a FROM t GROUP BY a WHERE a > 1".data 16 27
      "GROUP BY".data [] "WHERE".data []
      (by rfl) (by rfl) (by rfl) (by rfl) (by decide)).1).trans (by rfl)

/-- Claim C2 (amended): re-running `_clean_sql` returns an already
repaired string unchanged provided the string contains no markdown
fence, is whitespace-canonical, has balanced parentheses, has at most
one distinct season literal, has no WHERE positioned after a GROUP BY,
and (ignoring surrounding whitespace) already ends in `;`.  Without
these provisos idempotence fails: conflict resolution can leave double
spaces that a second run collapses (see the counterexample). -/
theorem c2_amended (l : List Char)
    (h1 : containsL "```".data l = false)
    (h2 : wsCollapse l = l)
    (h3 : countChar '(' l = countChar ')' l)
    (h5 : (seasonVals l).dedup.length ≤ 1)
    (h6 : whereAfterGroup l = false)
    (h7 : endsWithL ";".data (stripL l) = true) :
    cleanSql l = l := by
  unfold cleanSql
  rw [fenceStrip_nop h1, h2, truncFixA_nop h3, truncFixB_nop h7, conflictFix_nop h5,
    reorderFix_nop h6, semiFix_nop h7]

/-- Claim C8: the execute endpoint's security gate.  Any request whose
cleaned SQL does not begin, case-insensitively and ignoring surrounding
whitespace, with SELECT is rejected with HTTP 400 before the query
executor RPC is reached — `executeModel` only forwards in the other
branch — and in particular any request string beginning with DROP,
DELETE, INSERT or UPDATE is always rejected: no textual fix of the
cleaning chain can match at the leading keyword, so the keyword survives
cleaning and fails the gate, independently of anything the repair
pipeline did before. -/
theorem c8_security_gate :
    (∀ l : List Char, selectGate l = false → executeModel l = ExecOutcome.rejected400) ∧
    (∀ l : List Char, startsWithL "DROP".data l = true →
      executeModel l = ExecOutcome.rejected400) ∧
    (∀ l : List Char, startsWithL "DELETE".data l = true →
      executeModel l = ExecOutcome.rejected400) ∧
    (∀ l : List Char, startsWithL "INSERT".data l = true →
      executeModel l = ExecOutcome.rejected400) ∧
    (∀ l : List Char, startsWithL "UPDATE".data l = true →
      executeModel l = ExecOutcome.rejected400) := by
  refine ⟨?_, ?_, ?_, ?_, ?_⟩
  · intro l hg
    unfold executeModel
    rw [hg]
    simp
  · intro l h
    obtain ⟨t, rfl⟩ := List.isPrefixOf_iff_prefix.mp h
    obtain ⟨u, hu⟩ := execClean_pre2 'D' 'R' (by decide) (by decide) (by decide) (by decide)
      (by decide) (by decide) (by decide) (by decide) (by decide) (by decide) (by decide)
      (by decide) (by decide) (by decide)
      (fun t' => mWordCI_hd2 (by decide) (by decide)) ('O' :: 'P' :: t)
    exact rejected_of_exec_head hu (by decide) (by decide) (by decide)
  · intro l h
    obtain ⟨t, rfl⟩ := List.isPrefixOf_iff_prefix.mp h
    obtain ⟨u, hu⟩ := execClean_pre2 'D' 'E' (by decide) (by decide) (by decide) (by decide)
      (by decide) (by decide) (by decide) (by decide) (by decide) (by decide) (by decide)
      (by decide) (by decide) (by decide)
      (fun t' => mWordCI_hd2 (by decide) (by decide)) ('L' :: 'E' :: 'T' :: 'E' :: t)
    exact rejected_of_exec_head hu (by decide) (by decide) (by decide)
  · intro l h
    obtain ⟨t, rfl⟩ := List.isPrefixOf_iff_prefix.mp h
    obtain ⟨u, hu⟩ := execClean_pre_insert ('E' :: 'R' :: 'T' :: t)
    exact rejected_of_exec_head hu (by decide) (by decide) (by decide)
  · intro l h
    obtain ⟨t, rfl⟩ := List.isPrefixOf_iff_prefix.mp h
    obtain ⟨u, hu⟩ := execClean_pre2 'U' 'P' (by decide) (by decide) (by decide) (by decide)
      (by decide) (by decide) (by decide) (by decide) (by decide) (by decide) (by decide)
      (by decide) (by decide) (by decide)
      (fun t' => mWordCI_hd (by decide)) ('D' :: 'A' :: 'T' :: 'E' :: t)
    exact rejected_of_exec_head hu (by decide) (by decide) (by decide)

/-- Witness for C8: a DROP statement is rejected before the RPC. -/
theorem c8_witness :
    executeModel "DROP TABLE matches".data = ExecOutcome.rejected400 :=
  c8_security_gate.2.1 "DROP TABLE matches".data (by rfl)

/-- Witness for C2: a repaired query satisfying every proviso is a fixed
point of the pipeline. -/
theorem c2_witness :
    cleanSql "SELECT home_team FROM matches WHERE season = '2024-2025' GROUP BY home_team;".data
      = "SELECT home_team FROM matches WHERE season = '2024-2025' GROUP BY home_team;".data :=
  c2_amended _ (by rfl) (by rfl) (by rfl) (by decide) (by rfl) (by rfl)

end SqlBall
